import Mathlib

/-!
Verification of the SentraX asset-vulnerability link lifecycle.

This file gives a shallow embedding of the link routes
(POST/GET/PUT/DELETE under /api/assets/:assetId/vulnerabilities and
POST /api/assets/:assetId/scan), the cascade-deleting parent routes, and
the dashboard aggregation queries (GET /api/dashboard/statistics and
GET /api/dashboard/recent-vulnerabilities), together with theorems about
the uniqueness, scoping, scan-merge and aggregation behaviour.

Timestamps are modelled as natural numbers; the current wall-clock time
is passed explicitly as a `now` argument.  The relational store is a
record of three lists plus the serial counter for link ids; the unique
index `asset_vulnerability_unique_idx` declared in shared/schema.ts is
enforced by `Store.insertLink`, which surfaces a uniqueness violation as
a database error with code 23505, exactly the shape the route handlers
duck-type on.
-/

namespace SentraX

/-- Asset types, from assetTypeEnum in shared/schema.ts. -/
inductive AssetType
  | server
  | workstation
  | network_device
  | iot_device
  | other
deriving DecidableEq

/-- Vulnerability severities, from vulnerabilitySeverityEnum in shared/schema.ts. -/
inductive Severity
  | critical
  | high
  | medium
  | low
  | informational
deriving DecidableEq

/-- The five severities in declaration order (vulnerabilitySeverityEnum.enumValues). -/
def severityValues : List Severity :=
  [.critical, .high, .medium, .low, .informational]

/-- Link statuses, from vulnerabilityStatusEnum in shared/schema.ts. -/
inductive LinkStatus
  | «open»
  | remediated
  | ignored
  | pending_verification
  | archived
deriving DecidableEq

/-- Parse a status string against the closed enum, none when outside it. -/
def parseLinkStatus : String → Option LinkStatus
  | "open" => some .«open»
  | "remediated" => some .remediated
  | "ignored" => some .ignored
  | "pending_verification" => some .pending_verification
  | "archived" => some .archived
  | _ => none

/-- A row of the assets table (shared/schema.ts). -/
structure Asset where
  id : Nat
  name : String
  type : AssetType
  ipAddress : String
  macAddress : Option String
  operatingSystem : Option String
  description : Option String
  lastScannedAt : Option Nat
  createdAt : Nat
  updatedAt : Nat
deriving DecidableEq

/-- A row of the vulnerabilities table (shared/schema.ts). -/
structure Vulnerability where
  id : Nat
  name : String
  description : String
  severity : Severity
  cvssScore : Option String
  source : Option String
  references : List String
  createdAt : Nat
  updatedAt : Nat
deriving DecidableEq

/-- A row of the assets_vulnerabilities join table (shared/schema.ts). -/
structure Link where
  id : Nat
  assetId : Nat
  vulnerabilityId : Nat
  status : LinkStatus
  lastSeenAt : Nat
  details : Option String
  remediationNotes : Option String
  updatedAt : Nat
deriving DecidableEq

/-- The relational store: the three entity collections plus the serial
counter backing the links primary key. -/
structure Store where
  assets : List Asset
  vulnerabilities : List Vulnerability
  links : List Link
  nextLinkId : Nat
deriving DecidableEq

/-- A database-layer error as surfaced to the route handlers; `code` is
the Postgres error code (23505 = unique violation) and `constraint` the
violated constraint name. -/
structure DbError where
  code : Nat
  constraint : String
deriving DecidableEq

/-- Name of the composite unique index on (assetId, vulnerabilityId)
declared in shared/schema.ts. -/
def uniqueIdxName : String := "asset_vulnerability_unique_idx"

/-- The WHERE clause shared by the pair-existence checks: matches the
link for a given (assetId, vulnerabilityId) pair. -/
def pairPred (assetId vulnerabilityId : Nat) (l : Link) : Bool :=
  l.assetId == assetId && l.vulnerabilityId == vulnerabilityId

/-- Whether some link for the pair is present in the store. -/
def pairExists (s : Store) (assetId vulnerabilityId : Nat) : Bool :=
  s.links.any (pairPred assetId vulnerabilityId)

/-- The central consistency rule: at most one link per
(assetId, vulnerabilityId) pair. -/
def pairwiseUnique (links : List Link) : Prop :=
  links.Pairwise (fun l₁ l₂ => ¬(l₁.assetId = l₂.assetId ∧ l₁.vulnerabilityId = l₂.vulnerabilityId))

/-- Values for an INSERT into assets_vulnerabilities. -/
structure LinkInsertValues where
  assetId : Nat
  vulnerabilityId : Nat
  status : LinkStatus
  details : Option String
  remediationNotes : Option String
  lastSeenAt : Nat
deriving DecidableEq

/-- INSERT into assets_vulnerabilities.  The store enforces the unique
index asset_vulnerability_unique_idx: a second row for an existing
(assetId, vulnerabilityId) pair is rejected with error 23505 instead of
being written.  `updatedAt` is filled by the column default. -/
def Store.insertLink (s : Store) (v : LinkInsertValues) (now : Nat) :
    Except DbError (Link × Store) :=
  if s.links.any (pairPred v.assetId v.vulnerabilityId) then
    .error ⟨23505, uniqueIdxName⟩
  else
    let link : Link :=
      { id := s.nextLinkId
        assetId := v.assetId
        vulnerabilityId := v.vulnerabilityId
        status := v.status
        lastSeenAt := v.lastSeenAt
        details := v.details
        remediationNotes := v.remediationNotes
        updatedAt := now }
    .ok (link, { s with links := s.links ++ [link], nextLinkId := s.nextLinkId + 1 })

/-- Store well-formedness: serial ids are distinct and below the next
serial value, links satisfy referential integrity (enforced by the
foreign keys in shared/schema.ts), and the unique index holds. -/
def Store.WF (s : Store) : Prop :=
  (s.assets.map Asset.id).Nodup ∧
  (s.vulnerabilities.map Vulnerability.id).Nodup ∧
  (s.links.map Link.id).Nodup ∧
  (∀ l ∈ s.links, l.id < s.nextLinkId) ∧
  (∀ l ∈ s.links, ∃ a ∈ s.assets, a.id = l.assetId) ∧
  (∀ l ∈ s.links, ∃ v ∈ s.vulnerabilities, v.id = l.vulnerabilityId) ∧
  pairwiseUnique s.links

instance (s : Store) : Decidable s.WF := by
  unfold Store.WF pairwiseUnique; infer_instance

/-- JavaScript truthiness for an optional string: absent, null and the
empty string are falsy. -/
def strTruthy : Option String → Bool
  | none => false
  | some str => !(str == "")

/-! ## Link Manager: CreateLink -/

/-- Body of POST /api/assets/:assetId/vulnerabilities, after JSON
parsing; `none` models an absent (or unparseable, for the id) field. -/
structure CreateLinkBody where
  vulnerabilityId : Option Nat
  status : Option String
  details : Option String
  remediationNotes : Option String
  lastSeenAt : Option Nat
deriving DecidableEq

/-- Response of the CreateLink route. -/
inductive CreateLinkResult
  | badRequest (msg : String)
  | notFound (msg : String)
  | conflict (msg : String)
  | created (link : Link)
  | serverError (msg : String)
deriving DecidableEq

/-- HTTP status code of a CreateLink response. -/
def CreateLinkResult.code : CreateLinkResult → Nat
  | .badRequest _ => 400
  | .notFound _ => 404
  | .conflict _ => 409
  | .created _ => 201
  | .serverError _ => 500

/-- The insert step of the CreateLink route together with its catch
clause: a uniqueness violation surfaced by the store (the lost race)
reads as 409, any other store error as 500. -/
def createLinkInsert (s : Store) (v : LinkInsertValues) (now : Nat) :
    CreateLinkResult × Store :=
  match s.insertLink v now with
  | .ok (link, s₂) => (.created link, s₂)
  | .error e =>
    if e.code == 23505 && e.constraint == uniqueIdxName then
      (.conflict "This vulnerability is already linked to this asset (DB constraint).", s)
    else (.serverError "Internal server error.", s)

/-- POST /api/assets/:assetId/vulnerabilities: validate the body, check
both parents exist, reject an existing pair with 409, then insert; a
uniqueness violation surfaced by the insert itself (the lost race) is
also translated to 409 by the catch clause. -/
def createLink (s : Store) (assetId : Nat) (body : CreateLinkBody) (now : Nat) :
    CreateLinkResult × Store :=
  match body.vulnerabilityId with
  | none => (.badRequest "Valid vulnerabilityId is required in the body.", s)
  | some vid =>
    if strTruthy body.status ∧ parseLinkStatus (body.status.getD "") = none then
      (.badRequest "Invalid status.", s)
    else
      match s.assets.find? (fun a => a.id == assetId) with
      | none => (.notFound "Asset not found.", s)
      | some _ =>
        match s.vulnerabilities.find? (fun v => v.id == vid) with
        | none => (.notFound "Vulnerability not found.", s)
        | some _ =>
          match s.links.find? (pairPred assetId vid) with
          | some _ => (.conflict "This vulnerability is already linked to this asset.", s)
          | none =>
            let st : LinkStatus :=
              if strTruthy body.status then
                (parseLinkStatus (body.status.getD "")).getD .«open»
              else .«open»
            createLinkInsert s
              ⟨assetId, vid, st, body.details, body.remediationNotes,
               body.lastSeenAt.getD now⟩ now

/-! ## Link Manager: UpdateLink and DeleteLink -/

/-- Body of PUT /api/assets/:assetId/vulnerabilities/:joinId; `none`
models an undefined field. -/
structure UpdateLinkBody where
  status : Option String
  details : Option String
  remediationNotes : Option String
  lastSeenAt : Option Nat
deriving DecidableEq

/-- Response of the UpdateLink route. -/
inductive UpdateLinkResult
  | badRequest (msg : String)
  | notFound (msg : String)
  | ok (link : Link)
  | serverError (msg : String)
deriving DecidableEq

/-- HTTP status code of an UpdateLink response. -/
def UpdateLinkResult.code : UpdateLinkResult → Nat
  | .badRequest _ => 400
  | .notFound _ => 404
  | .ok _ => 200
  | .serverError _ => 500

/-- Apply the supplied fields of an update body to a link row; the
updatedAt column is touched by the schema on any update. -/
def applyLinkUpdate (body : UpdateLinkBody) (now : Nat) (l : Link) : Link :=
  { l with
    status :=
      match body.status with
      | some str => (parseLinkStatus str).getD l.status
      | none => l.status
    details :=
      match body.details with
      | some d => some d
      | none => l.details
    remediationNotes :=
      match body.remediationNotes with
      | some r => some r
      | none => l.remediationNotes
    lastSeenAt := body.lastSeenAt.getD l.lastSeenAt
    updatedAt := now }

/-- PUT /api/assets/:assetId/vulnerabilities/:joinId: validate, then
UPDATE WHERE id = joinId AND asset_id = assetId; an empty returning set
reads as 404.  An empty status string slips past the truthiness guard
but is outside the enum, so the store rejects it and the catch clause
answers 500. -/
def updateLink (s : Store) (assetId joinId : Nat) (body : UpdateLinkBody) (now : Nat) :
    UpdateLinkResult × Store :=
  if strTruthy body.status ∧ parseLinkStatus (body.status.getD "") = none then
    (.badRequest "Invalid status.", s)
  else if body.status = none ∧ body.details = none ∧
      body.remediationNotes = none ∧ body.lastSeenAt = none then
    (.badRequest "No fields provided for update.", s)
  else if body.status = some "" then
    (.serverError "Internal server error.", s)
  else
    match s.links.filter (fun l => l.id == joinId && l.assetId == assetId) with
    | [] => (.notFound "Asset-vulnerability link not found or no changes made.", s)
    | l :: _ =>
      (.ok (applyLinkUpdate body now l),
       { s with links := s.links.map (fun l₀ =>
           if l₀.id == joinId && l₀.assetId == assetId then applyLinkUpdate body now l₀
           else l₀) })

/-- Response of the DeleteLink route. -/
inductive DeleteLinkResult
  | badRequest (msg : String)
  | notFound (msg : String)
  | ok (linkId : Nat)
deriving DecidableEq

/-- HTTP status code of a DeleteLink response. -/
def DeleteLinkResult.code : DeleteLinkResult → Nat
  | .badRequest _ => 400
  | .notFound _ => 404
  | .ok _ => 200

/-- DELETE /api/assets/:assetId/vulnerabilities/:joinId: DELETE WHERE
id = joinId AND asset_id = assetId; an empty returning set reads as 404. -/
def deleteLink (s : Store) (assetId joinId : Nat) : DeleteLinkResult × Store :=
  match s.links.filter (fun l => l.id == joinId && l.assetId == assetId) with
  | [] => (.notFound "Asset-vulnerability link not found.", s)
  | d :: _ =>
    (.ok d.id,
     { s with links := s.links.filter (fun l => !(l.id == joinId && l.assetId == assetId)) })

/-! ## Parent deletion with cascade -/

/-- Response of the parent-entity delete routes. -/
inductive DeleteEntityResult
  | notFound (msg : String)
  | ok (entityId : Nat)
deriving DecidableEq

/-- DELETE /api/assets/:assetId; the store cascades deletion of the
dependent links (onDelete cascade on assets_vulnerabilities.asset_id in
shared/schema.ts). -/
def deleteAsset (s : Store) (assetId : Nat) : DeleteEntityResult × Store :=
  match s.assets.filter (fun a => a.id == assetId) with
  | [] => (.notFound "Asset not found.", s)
  | a :: _ =>
    (.ok a.id,
     { s with
       assets := s.assets.filter (fun a₀ => !(a₀.id == assetId))
       links := s.links.filter (fun l => !(l.assetId == assetId)) })

/-- DELETE /api/vulnerabilities/:vulnerabilityId; the store cascades
deletion of the dependent links (onDelete cascade on
assets_vulnerabilities.vulnerability_id in shared/schema.ts). -/
def deleteVulnerability (s : Store) (vulnerabilityId : Nat) : DeleteEntityResult × Store :=
  match s.vulnerabilities.filter (fun v => v.id == vulnerabilityId) with
  | [] => (.notFound "Vulnerability not found.", s)
  | v :: _ =>
    (.ok v.id,
     { s with
       vulnerabilities := s.vulnerabilities.filter (fun v₀ => !(v₀.id == vulnerabilityId))
       links := s.links.filter (fun l => !(l.vulnerabilityId == vulnerabilityId)) })

/-! ## Scan Merger -/

/-- Response of POST /api/assets/:assetId/scan.  The empty-batch early
return and the end-of-loop return share the `completed` shape; they are
distinguished by the message. -/
inductive ScanResult
  | badRequest (msg : String)
  | notFound (msg : String)
  | completed (msg : String) (assetId newlyLinked updatedLinks vulnerabilitiesProcessed : Nat)
  | serverError (msg : String)
deriving DecidableEq

/-- Message of a scan that found no vulnerabilities in the system. -/
def noVulnsMsg : String :=
  "Simulated scan completed. No vulnerabilities available in the system to scan for."

/-- Message of a scan that processed a nonempty candidate batch. -/
def scanDoneMsg : String := "Simulated scan completed."

/-- Message of the generic catch clause of the scan route. -/
def scanErrorMsg : String := "Internal server error during simulated scan."

/-- Candidate selection of the simulated scan: the vulnerabilities
ordered by id descending, limit 5. -/
def candidateBatch (s : Store) : List Vulnerability :=
  (List.insertionSort (fun v₁ v₂ => v₂.id ≤ v₁.id) s.vulnerabilities).take 5

/-- One iteration of the scan loop.  Reads (the existence check) run
against `sCheck` and writes against `sAct`; a sequential execution has
the two equal, while a concurrent CreateLink landing between the check
and the insert is modelled by an `sAct` that already holds the pair.
Returns the new store and true when the candidate hit the update branch
(counted under updatedLinks), false for the insert branch (counted under
newlyLinked); a store error from the insert is NOT handled here — the
loop body has no catch of its own. -/
def scanStep (sCheck sAct : Store) (assetId : Nat) (vuln : Vulnerability) (now : Nat) :
    Except DbError (Store × Bool) :=
  match sCheck.links.find? (pairPred assetId vuln.id) with
  | some existingLink =>
    .ok
      ({ sAct with links := sAct.links.map (fun l =>
          if l.id == existingLink.id then
            { l with
              lastSeenAt := now
              status :=
                if existingLink.status == LinkStatus.«open» then l.status
                else LinkStatus.«open»
              updatedAt := now }
          else l) },
       true)
  | none =>
    match sAct.insertLink ⟨assetId, vuln.id, .«open», none, none, now⟩ now with
    | .ok (_, s₂) => .ok (s₂, false)
    | .error e => .error e

/-- The scan loop over the candidate batch, returning the pair
(newlyLinked, updatedLinks) on success.  `interf` is the interference
applied by concurrent requests between each existence check and the
corresponding write; the sequential semantics instantiates it with the
identity.  An uncaught store error aborts the loop; writes already made
stay committed (there is no rollback). -/
def scanLoop (interf : Store → Store) (assetId now : Nat) :
    Store → List Vulnerability → (Except DbError (Nat × Nat)) × Store
  | s, [] => (.ok (0, 0), s)
  | s, vuln :: rest =>
    match scanStep s (interf s) assetId vuln now with
    | .error e => (.error e, interf s)
    | .ok (s₁, updated) =>
      match scanLoop interf assetId now s₁ rest with
      | (.error e, s₂) => (.error e, s₂)
      | (.ok (n, u), s₂) =>
        (.ok (if updated then n else n + 1, if updated then u + 1 else u), s₂)

/-- POST /api/assets/:assetId/scan under an interference model: check
the asset exists, select the candidate batch, early-return on an empty
batch, else run the merge loop; any store error reaches the generic
catch clause and answers 500. -/
def scanAssetWith (interf : Store → Store) (s : Store) (assetId now : Nat) :
    ScanResult × Store :=
  match s.assets.find? (fun a => a.id == assetId) with
  | none => (.notFound "Asset not found.", s)
  | some _ =>
    let batch := candidateBatch s
    if batch.isEmpty then
      (.completed noVulnsMsg assetId 0 0 0, s)
    else
      match scanLoop interf assetId now s batch with
      | (.ok (n, u), s₂) => (.completed scanDoneMsg assetId n u batch.length, s₂)
      | (.error _, s₂) => (.serverError scanErrorMsg, s₂)

/-- POST /api/assets/:assetId/scan, sequential semantics. -/
def scanAsset (s : Store) (assetId now : Nat) : ScanResult × Store :=
  scanAssetWith (fun s₀ => s₀) s assetId now

/-- The part of store well-formedness the scan loop maintains: link ids
are distinct and below the serial counter, and the unique index holds. -/
def ScanInv (s : Store) : Prop :=
  (s.links.map Link.id).Nodup ∧
  (∀ l ∈ s.links, l.id < s.nextLinkId) ∧
  pairwiseUnique s.links

/-! ## Dashboard Aggregator -/

/-- The severity of the vulnerability joined to each open link (left
join: `none` when the parent row does not resolve). -/
def openSeverities (s : Store) : List (Option Severity) :=
  (s.links.filter (fun l => l.status == LinkStatus.«open»)).map (fun l =>
    (s.vulnerabilities.find? (fun v => v.id == l.vulnerabilityId)).map (·.severity))

/-- The statistics payload of GET /api/dashboard/statistics. -/
structure Statistics where
  totalAssets : Nat
  totalVulnerabilities : Nat
  totalOpenVulnerabilityInstances : Nat
  openVulnerabilitiesBySeverity : List (Severity × Nat)
deriving DecidableEq

/-- GET /api/dashboard/statistics: entity counts, the count of open
links, and open-link counts grouped by joined severity; the by-severity
object is seeded with a zero for every enum value and then overwritten
from the grouped rows (rows with a null severity are skipped). -/
def statistics (s : Store) : Statistics :=
  let totalAssets := s.assets.length
  let totalVulnerabilities := s.vulnerabilities.length
  let openCount := (s.links.filter (fun l => l.status == LinkStatus.«open»)).length
  let sevs := openSeverities s
  let rows : List (Option Severity × Nat) :=
    sevs.dedup.map (fun v =>
      (v, match v with
          | none => 0
          | some _ => sevs.count v))
  let init : List (Severity × Nat) := severityValues.map (fun sv => (sv, 0))
  let bySeverity := rows.foldl (fun acc row =>
    match row.1 with
    | none => acc
    | some sv => acc.map (fun p => if p.1 == sv then (p.1, row.2) else p)) init
  ⟨totalAssets, totalVulnerabilities, openCount, bySeverity⟩

/-- One entry of GET /api/dashboard/recent-vulnerabilities: the selected
columns of the double left join. -/
structure RecentVulnEntry where
  joinId : Nat
  vulnerabilityName : Option String
  vulnerabilitySeverity : Option Severity
  vulnerabilitySource : Option String
  assetName : Option String
  assetIpAddress : Option String
  lastSeenOrUpdatedAt : Nat
deriving DecidableEq

/-- Projection of one link row through the left joins to its parents. -/
def recentSelect (s : Store) (l : Link) : RecentVulnEntry :=
  { joinId := l.id
    vulnerabilityName :=
      (s.vulnerabilities.find? (fun v => v.id == l.vulnerabilityId)).map (·.name)
    vulnerabilitySeverity :=
      (s.vulnerabilities.find? (fun v => v.id == l.vulnerabilityId)).map (·.severity)
    vulnerabilitySource :=
      (s.vulnerabilities.find? (fun v => v.id == l.vulnerabilityId)).bind (·.source)
    assetName := (s.assets.find? (fun a => a.id == l.assetId)).map (·.name)
    assetIpAddress := (s.assets.find? (fun a => a.id == l.assetId)).map (·.ipAddress)
    lastSeenOrUpdatedAt := l.updatedAt }

/-- GET /api/dashboard/recent-vulnerabilities: open links ordered by
updatedAt descending, limit 5, joined to their parents, then entries
with a falsy vulnerability or asset name filtered out. -/
def recentVulnerabilities (s : Store) : List RecentVulnEntry :=
  let openLinks := s.links.filter (fun l => l.status == LinkStatus.«open»)
  let ordered :=
    (List.insertionSort (fun l₁ l₂ => l₂.updatedAt ≤ l₁.updatedAt) openLinks).take 5
  (ordered.map (recentSelect s)).filter (fun e =>
    strTruthy e.vulnerabilityName && strTruthy e.assetName)

/-! ## Concrete fixtures, used by the closed witness theorems -/

/-- A sample asset. -/
def asset1 : Asset :=
  { id := 1, name := "web-server", type := .server, ipAddress := "10.0.0.1"
    macAddress := none, operatingSystem := none, description := none
    lastScannedAt := none, createdAt := 0, updatedAt := 0 }

/-- A second sample asset. -/
def asset2 : Asset :=
  { asset1 with id := 2, name := "db-server", ipAddress := "10.0.0.2" }

/-- A sample vulnerability. -/
def vuln1 : Vulnerability :=
  { id := 1, name := "CVE-2024-0001", description := "demo", severity := .critical
    cvssScore := none, source := none, references := [], createdAt := 0, updatedAt := 0 }

/-- A second sample vulnerability. -/
def vuln2 : Vulnerability :=
  { vuln1 with id := 2, name := "CVE-2024-0002", severity := .low }

/-- A sample link between asset1 and vuln1, in remediated status. -/
def link11 : Link :=
  { id := 1, assetId := 1, vulnerabilityId := 1, status := .remediated
    lastSeenAt := 0, details := none, remediationNotes := none, updatedAt := 0 }

/-- A sample store with two assets, two vulnerabilities and one link. -/
def demoStore : Store :=
  { assets := [asset1, asset2], vulnerabilities := [vuln1, vuln2]
    links := [link11], nextLinkId := 2 }

/-- A sample store holding an asset but no vulnerabilities. -/
def emptyVulnStore : Store :=
  { assets := [asset1], vulnerabilities := [], links := [], nextLinkId := 1 }

/-- The link a concurrent request commits in the scan-race scenario. -/
def raceLink : Link :=
  { id := 1, assetId := 1, vulnerabilityId := 1, status := .«open», lastSeenAt := 0
    details := none, remediationNotes := none, updatedAt := 0 }

/-- A store in which asset 1 has no link to vulnerability 1 yet. -/
def raceStore : Store :=
  { assets := [asset1], vulnerabilities := [vuln1], links := [], nextLinkId := 1 }

/-- Interference of a concurrent CreateLink committing the (1, 1) link
between this scan's existence check and its insert. -/
def raceInterf : Store → Store :=
  fun s => { s with links := s.links ++ [raceLink], nextLinkId := s.nextLinkId + 1 }

/-! ## Helper lemmas -/

/-- Two members of a list with duplicate-free keys and equal keys coincide. -/
theorem mem_eq_of_key_eq {α : Type} {f : α → Nat} {l : List α}
    (hnd : (l.map f).Nodup) {x y : α} (hx : x ∈ l) (hy : y ∈ l) (hxy : f x = f y) : x = y :=
  List.inj_on_of_nodup_map hnd hx hy hxy

/-- Filtering a duplicate-free-key list by the key of a member keeps
exactly that member. -/
theorem filter_key_eq_singleton {α : Type} {f : α → Nat} :
    ∀ (l : List α), (l.map f).Nodup → ∀ (a : α), a ∈ l →
      l.filter (fun x => f x == f a) = [a]
  | [], _, a, ha => absurd ha (List.not_mem_nil a)
  | b :: t, hnd, a, ha => by
    rw [List.map_cons, List.nodup_cons] at hnd
    rcases List.mem_cons.mp ha with rfl | hat
    · have ht : t.filter (fun x => f x == f a) = [] := by
        rw [List.filter_eq_nil_iff]
        intro x hx
        simp only [beq_iff_eq]
        intro hfx
        exact hnd.1 (hfx ▸ List.mem_map_of_mem f hx)
      simp [List.filter_cons, ht]
    · have hfb : (f b == f a) = false := by
        rw [beq_eq_false_iff_ne]
        intro hba
        exact hnd.1 (hba ▸ List.mem_map_of_mem f hat)
      simp only [List.filter_cons, hfb, Bool.false_eq_true, if_false]
      exact filter_key_eq_singleton t hnd.2 a hat

/-- Searching a duplicate-free-key list by the key of a member finds
exactly that member. -/
theorem find?_key_eq_some {α : Type} {f : α → Nat} :
    ∀ (l : List α), (l.map f).Nodup → ∀ (a : α), a ∈ l →
      l.find? (fun x => f x == f a) = some a
  | [], _, a, ha => absurd ha (List.not_mem_nil a)
  | b :: t, hnd, a, ha => by
    rw [List.map_cons, List.nodup_cons] at hnd
    rcases List.mem_cons.mp ha with rfl | hat
    · simp [List.find?_cons]
    · have hfb : (f b == f a) = false := by
        rw [beq_eq_false_iff_ne]
        intro hba
        exact hnd.1 (hba ▸ List.mem_map_of_mem f hat)
      rw [List.find?_cons, hfb]
      exact find?_key_eq_some t hnd.2 a hat

/-- Length of a negated filter in terms of the positive count. -/
theorem length_filter_not {α : Type} (p : α → Bool) (l : List α) :
    (l.filter (fun x => !(p x))).length = l.length - l.countP p := by
  have h1 := List.length_eq_countP_add_countP p l
  have h2 : List.countP (fun x => decide (¬p x = true)) l =
      (l.filter (fun x => !(p x))).length := by
    rw [List.countP_eq_length_filter]
    have : ∀ x ∈ l, decide (¬p x = true) = !(p x) := by
      intro x _
      cases p x <;> simp
    rw [List.filter_congr this]
  omega

/-- A successful insert preserves pair uniqueness: the store refuses the
write precisely when the pair is already present. -/
theorem insertLink_ok_pairUnique {s : Store} {v : LinkInsertValues} {now : Nat}
    {link : Link} {s₂ : Store}
    (h : pairwiseUnique s.links) (hok : s.insertLink v now = .ok (link, s₂)) :
    pairwiseUnique s₂.links := by
  unfold Store.insertLink at hok
  by_cases hany : s.links.any (pairPred v.assetId v.vulnerabilityId) = true
  · simp only [hany, if_true] at hok
    cases hok
  · rw [Bool.not_eq_true] at hany
    simp only [hany, Bool.false_eq_true, if_false, Except.ok.injEq, Prod.mk.injEq] at hok
    obtain ⟨-, rfl⟩ := hok
    unfold pairwiseUnique
    rw [List.pairwise_append]
    refine ⟨h, List.pairwise_singleton _ _, ?_⟩
    intro x hx y hy
    rw [List.mem_singleton] at hy
    subst hy
    have := List.any_eq_false.mp hany x hx
    simp only [pairPred, Bool.and_eq_true, beq_iff_eq] at this
    simpa using this

/-- The insert-with-catch step preserves pair uniqueness. -/
theorem createLinkInsert_pairUnique (s : Store) (v : LinkInsertValues) (now : Nat)
    (h : pairwiseUnique s.links) :
    pairwiseUnique ((createLinkInsert s v now).2).links := by
  unfold createLinkInsert
  cases hins : s.insertLink v now with
  | ok x =>
    obtain ⟨link, s₂⟩ := x
    exact insertLink_ok_pairUnique h hins
  | error e =>
    by_cases hc : (e.code == 23505 && e.constraint == uniqueIdxName) = true <;>
      simp [hc, h]

/-- Every branch of CreateLink preserves pair uniqueness: no call path
can write a duplicate (assetId, vulnerabilityId) row. -/
theorem createLink_pairUnique (s : Store) (assetId : Nat) (body : CreateLinkBody) (now : Nat)
    (h : pairwiseUnique s.links) :
    pairwiseUnique ((createLink s assetId body now).2).links := by
  unfold createLink
  split
  · exact h
  split
  · exact h
  split
  · exact h
  split
  · exact h
  split
  · exact h
  exact createLinkInsert_pairUnique s _ now h

/-! ## Claim theorems -/

/-- C1: for every (assetId, vulnerabilityId) pair at most one Link
exists; a CreateLink request for a pair that already has a Link fails
with ConflictError (HTTP 409) and leaves the store unchanged, and no
CreateLink call path can ever produce a duplicate pair row. -/
theorem createLink_duplicate_pair_conflict
    (s : Store) (assetId vid now : Nat) (body : CreateLinkBody) (l : Link)
    (hwf : s.WF) (hvid : body.vulnerabilityId = some vid)
    (hstatus : ¬(strTruthy body.status = true ∧ parseLinkStatus (body.status.getD "") = none))
    (hl : l ∈ s.links) (hla : l.assetId = assetId) (hlv : l.vulnerabilityId = vid) :
    (createLink s assetId body now).1 =
      .conflict "This vulnerability is already linked to this asset." ∧
    ((createLink s assetId body now).1).code = 409 ∧
    (createLink s assetId body now).2 = s ∧
    ∀ aid₂ body₂ now₂, pairwiseUnique ((createLink s aid₂ body₂ now₂).2).links := by
  obtain ⟨-, -, -, -, hra, hrv, hpu⟩ := hwf
  obtain ⟨a, haMem, haId⟩ := hra l hl
  obtain ⟨v, hvMem, hvId⟩ := hrv l hl
  have hAfind : ∃ a₀, s.assets.find? (fun x => x.id == assetId) = some a₀ := by
    cases hcase : s.assets.find? (fun x => x.id == assetId) with
    | some a₀ => exact ⟨a₀, rfl⟩
    | none =>
      have := List.find?_eq_none.mp hcase a haMem
      simp [haId, hla] at this
  have hVfind : ∃ v₀, s.vulnerabilities.find? (fun x => x.id == vid) = some v₀ := by
    cases hcase : s.vulnerabilities.find? (fun x => x.id == vid) with
    | some v₀ => exact ⟨v₀, rfl⟩
    | none =>
      have := List.find?_eq_none.mp hcase v hvMem
      simp [hvId, hlv] at this
  have hLfind : ∃ l₀, s.links.find? (pairPred assetId vid) = some l₀ := by
    cases hcase : s.links.find? (pairPred assetId vid) with
    | some l₀ => exact ⟨l₀, rfl⟩
    | none =>
      have := List.find?_eq_none.mp hcase l hl
      simp [pairPred, hla, hlv] at this
  obtain ⟨a₀, hA⟩ := hAfind
  obtain ⟨v₀, hV⟩ := hVfind
  obtain ⟨l₀, hL⟩ := hLfind
  refine ⟨?_, ?_, ?_, fun aid₂ body₂ now₂ => createLink_pairUnique s aid₂ body₂ now₂ hpu⟩ <;>
    simp [createLink, hvid, if_neg hstatus, hA, hV, hL, CreateLinkResult.code]

/-- C1 witness: the duplicate-pair conflict at a concrete store. -/
theorem createLink_duplicate_pair_conflict_witness :
    (createLink demoStore 1 ⟨some 1, none, none, none, none⟩ 5).1 =
      .conflict "This vulnerability is already linked to this asset." :=
  (createLink_duplicate_pair_conflict demoStore 1 1 5 ⟨some 1, none, none, none, none⟩ link11
    (by decide) rfl (by decide) (by decide) rfl rfl).1

/-- C2: UpdateLink and DeleteLink with a joinId owned by a different
asset answer 404 and leave the store unchanged: the asset scoping is
part of the lookup key. -/
theorem link_scoped_lookup_notFound
    (s : Store) (assetId joinId now : Nat) (body : UpdateLinkBody) (l : Link)
    (hwf : s.WF) (hl : l ∈ s.links) (hid : l.id = joinId) (hne : l.assetId ≠ assetId)
    (hstatus : ¬(strTruthy body.status = true ∧ parseLinkStatus (body.status.getD "") = none))
    (hnonempty : ¬(body.status = none ∧ body.details = none ∧
        body.remediationNotes = none ∧ body.lastSeenAt = none))
    (hnotEmptyStr : ¬body.status = some "") :
    updateLink s assetId joinId body now =
      (.notFound "Asset-vulnerability link not found or no changes made.", s) ∧
    deleteLink s assetId joinId = (.notFound "Asset-vulnerability link not found.", s) := by
  obtain ⟨-, -, hids, -, -, -, -⟩ := hwf
  have hfilter : s.links.filter (fun l₀ => l₀.id == joinId && l₀.assetId == assetId) = [] := by
    rw [List.filter_eq_nil_iff]
    intro x hx
    simp only [Bool.and_eq_true, beq_iff_eq, not_and]
    intro hxid hxa
    have hx_eq : x = l := mem_eq_of_key_eq hids hx hl (hxid.trans hid.symm)
    exact hne (hx_eq ▸ hxa)
  constructor
  · unfold updateLink
    rw [if_neg hstatus, if_neg hnonempty, if_neg hnotEmptyStr, hfilter]
  · unfold deleteLink
    rw [hfilter]

/-- C2 witness: the wrong-asset 404 at a concrete store. -/
theorem link_scoped_lookup_notFound_witness :
    updateLink demoStore 2 1 ⟨some "remediated", none, none, none⟩ 9 =
      (.notFound "Asset-vulnerability link not found or no changes made.", demoStore) ∧
    deleteLink demoStore 2 1 = (.notFound "Asset-vulnerability link not found.", demoStore) :=
  link_scoped_lookup_notFound demoStore 2 1 9 ⟨some "remediated", none, none, none⟩ link11
    (by decide) (by decide) rfl (by decide) (by decide) (by decide) (by decide)

/-- C5: a scan of an existing asset in a system with zero
vulnerabilities returns the explicit no-vulnerabilities signal with all
three counters zero and leaves the store untouched. -/
theorem scanAsset_no_vulnerabilities
    (s : Store) (assetId now : Nat)
    (ha : ∃ a ∈ s.assets, a.id = assetId) (hnov : s.vulnerabilities = []) :
    scanAsset s assetId now = (.completed noVulnsMsg assetId 0 0 0, s) := by
  obtain ⟨a, haMem, haId⟩ := ha
  have hAfind : ∃ a₀, s.assets.find? (fun x => x.id == assetId) = some a₀ := by
    cases hcase : s.assets.find? (fun x => x.id == assetId) with
    | some a₀ => exact ⟨a₀, rfl⟩
    | none =>
      have := List.find?_eq_none.mp hcase a haMem
      simp [haId] at this
  obtain ⟨a₀, hA⟩ := hAfind
  have hbatch : candidateBatch s = [] := by
    unfold candidateBatch
    rw [hnov]
    rfl
  simp [scanAsset, scanAssetWith, hA, hbatch]

/-- C5 witness: the empty-system scan at a concrete store. -/
theorem scanAsset_no_vulnerabilities_witness :
    scanAsset emptyVulnStore 1 3 = (.completed noVulnsMsg 1 0 0 0, emptyVulnStore) :=
  scanAsset_no_vulnerabilities emptyVulnStore 1 3 ⟨asset1, by decide, rfl⟩ rfl

/-- C7: deleting an Asset (or a Vulnerability) cascades deletion of
exactly its dependent Links: each removed link id reads as not-found
afterwards, links of other parents survive unchanged, nothing new
appears, and exactly the referencing links are gone from the count. -/
theorem delete_cascade
    (s : Store) (a : Asset) (v : Vulnerability)
    (hwf : s.WF) (ha : a ∈ s.assets) (hv : v ∈ s.vulnerabilities) :
    (deleteAsset s a.id).1 = .ok a.id ∧
    (∀ l ∈ s.links, l.assetId = a.id →
       ((deleteAsset s a.id).2).links.find? (fun x => x.id == l.id) = none) ∧
    (∀ l ∈ s.links, l.assetId ≠ a.id → l ∈ ((deleteAsset s a.id).2).links) ∧
    (∀ l ∈ ((deleteAsset s a.id).2).links, l ∈ s.links ∧ l.assetId ≠ a.id) ∧
    ((deleteAsset s a.id).2).links.length =
      s.links.length - s.links.countP (fun l => l.assetId == a.id) ∧
    (deleteVulnerability s v.id).1 = .ok v.id ∧
    (∀ l ∈ s.links, l.vulnerabilityId = v.id →
       ((deleteVulnerability s v.id).2).links.find? (fun x => x.id == l.id) = none) ∧
    (∀ l ∈ s.links, l.vulnerabilityId ≠ v.id → l ∈ ((deleteVulnerability s v.id).2).links) ∧
    (∀ l ∈ ((deleteVulnerability s v.id).2).links, l ∈ s.links ∧ l.vulnerabilityId ≠ v.id) ∧
    ((deleteVulnerability s v.id).2).links.length =
      s.links.length - s.links.countP (fun l => l.vulnerabilityId == v.id) := by
  obtain ⟨hAid, hVid, hLid, -, -, -, -⟩ := hwf
  have hfa : s.assets.filter (fun x => x.id == a.id) = [a] :=
    filter_key_eq_singleton s.assets hAid a ha
  have hfv : s.vulnerabilities.filter (fun x => x.id == v.id) = [v] :=
    filter_key_eq_singleton s.vulnerabilities hVid v hv
  have hda : deleteAsset s a.id =
      (.ok a.id,
       { s with
         assets := s.assets.filter (fun a₀ => !(a₀.id == a.id))
         links := s.links.filter (fun l => !(l.assetId == a.id)) }) := by
    unfold deleteAsset
    rw [hfa]
  have hdv : deleteVulnerability s v.id =
      (.ok v.id,
       { s with
         vulnerabilities := s.vulnerabilities.filter (fun v₀ => !(v₀.id == v.id))
         links := s.links.filter (fun l => !(l.vulnerabilityId == v.id)) }) := by
    unfold deleteVulnerability
    rw [hfv]
  refine ⟨?_, ?_, ?_, ?_, ?_, ?_, ?_, ?_, ?_, ?_⟩
  · rw [hda]
  · intro l₀ hl₀ hassEq
    rw [hda, List.find?_eq_none]
    intro x hx
    rw [List.mem_filter] at hx
    obtain ⟨hxMem, hxPred⟩ := hx
    rw [Bool.not_eq_true', beq_eq_false_iff_ne] at hxPred
    simp only [beq_iff_eq]
    intro hxid
    have hx_eq : x = l₀ := mem_eq_of_key_eq hLid hxMem hl₀ hxid
    exact hxPred (by rw [hx_eq, hassEq])
  · intro l₀ hl₀ hne
    rw [hda, List.mem_filter]
    exact ⟨hl₀, by simp [hne]⟩
  · intro l₀ hl₀
    rw [hda, List.mem_filter] at hl₀
    obtain ⟨hmem, hpred⟩ := hl₀
    rw [Bool.not_eq_true', beq_eq_false_iff_ne] at hpred
    exact ⟨hmem, hpred⟩
  · rw [hda]
    exact length_filter_not (fun l => l.assetId == a.id) s.links
  · rw [hdv]
  · intro l₀ hl₀ hvulEq
    rw [hdv, List.find?_eq_none]
    intro x hx
    rw [List.mem_filter] at hx
    obtain ⟨hxMem, hxPred⟩ := hx
    rw [Bool.not_eq_true', beq_eq_false_iff_ne] at hxPred
    simp only [beq_iff_eq]
    intro hxid
    have hx_eq : x = l₀ := mem_eq_of_key_eq hLid hxMem hl₀ hxid
    exact hxPred (by rw [hx_eq, hvulEq])
  · intro l₀ hl₀ hne
    rw [hdv, List.mem_filter]
    exact ⟨hl₀, by simp [hne]⟩
  · intro l₀ hl₀
    rw [hdv, List.mem_filter] at hl₀
    obtain ⟨hmem, hpred⟩ := hl₀
    rw [Bool.not_eq_true', beq_eq_false_iff_ne] at hpred
    exact ⟨hmem, hpred⟩
  · rw [hdv]
    exact length_filter_not (fun l => l.vulnerabilityId == v.id) s.links

/-- C7 witness: both cascade deletions succeed at a concrete store. -/
theorem delete_cascade_witness :
    (deleteAsset demoStore 1).1 = .ok 1 ∧ (deleteVulnerability demoStore 1).1 = .ok 1 :=
  have h := delete_cascade demoStore asset1 vuln1 (by decide) (by decide) (by decide)
  ⟨h.1, h.2.2.2.2.2.1⟩

/-! ## Scan loop lemmas -/

/-- Boolean `any` respects pointwise-equal predicates. -/
theorem any_congr_fn {α : Type} {p q : α → Bool} :
    ∀ (l : List α), (∀ x ∈ l, p x = q x) → l.any p = l.any q
  | [], _ => rfl
  | a :: t, h => by
    rw [List.any_cons, List.any_cons, h a (.head t),
      any_congr_fn t (fun x hx => h x (.tail a hx))]

/-- Finding an asset row by id succeeds when such a row exists. -/
theorem assets_find?_some {s : Store} {assetId : Nat}
    (ha : ∃ a ∈ s.assets, a.id = assetId) :
    ∃ a₀, s.assets.find? (fun x => x.id == assetId) = some a₀ := by
  obtain ⟨a, haMem, haId⟩ := ha
  cases hcase : s.assets.find? (fun x => x.id == assetId) with
  | some a₀ => exact ⟨a₀, rfl⟩
  | none =>
    have := List.find?_eq_none.mp hcase a haMem
    simp [haId] at this

/-- Sequential insert branch of the scan loop body. -/
theorem scanStep_seq_insert (s : Store) (assetId : Nat) (v : Vulnerability) (now : Nat)
    (hfind : s.links.find? (pairPred assetId v.id) = none) :
    scanStep s s assetId v now =
      .ok ({ s with
             links := s.links ++
               [{ id := s.nextLinkId, assetId := assetId, vulnerabilityId := v.id,
                  status := .«open», lastSeenAt := now, details := none,
                  remediationNotes := none, updatedAt := now }],
             nextLinkId := s.nextLinkId + 1 }, false) := by
  have hany : s.links.any (pairPred assetId v.id) = false :=
    List.any_eq_false.mpr (List.find?_eq_none.mp hfind)
  unfold scanStep Store.insertLink
  rw [hfind]
  simp only [hany, Bool.false_eq_true, if_false]

/-- Sequential update branch of the scan loop body. -/
theorem scanStep_seq_update (s : Store) (assetId : Nat) (v : Vulnerability) (now : Nat)
    (ex : Link) (hfind : s.links.find? (pairPred assetId v.id) = some ex) :
    scanStep s s assetId v now =
      .ok ({ s with
             links := s.links.map (fun l =>
               if l.id == ex.id then
                 { l with
                   lastSeenAt := now
                   status :=
                     if ex.status == LinkStatus.«open» then l.status else LinkStatus.«open»
                   updatedAt := now }
               else l) }, true) := by
  unfold scanStep
  rw [hfind]

/-- A sequential scan step always succeeds and reports whether the pair
already existed; it never touches assets or vulnerabilities. -/
theorem scanStep_seq_ok (s : Store) (assetId : Nat) (v : Vulnerability) (now : Nat) :
    ∃ s₁, scanStep s s assetId v now = .ok (s₁, pairExists s assetId v.id) ∧
      s₁.assets = s.assets ∧ s₁.vulnerabilities = s.vulnerabilities := by
  cases hfind : s.links.find? (pairPred assetId v.id) with
  | none =>
    have hpe : pairExists s assetId v.id = false :=
      List.any_eq_false.mpr (List.find?_eq_none.mp hfind)
    exact ⟨{ s with
             links := s.links ++
               [{ id := s.nextLinkId, assetId := assetId, vulnerabilityId := v.id,
                  status := .«open», lastSeenAt := now, details := none,
                  remediationNotes := none, updatedAt := now }],
             nextLinkId := s.nextLinkId + 1 },
      by rw [hpe]; exact scanStep_seq_insert s assetId v now hfind, rfl, rfl⟩
  | some ex =>
    have hpe : pairExists s assetId v.id = true :=
      List.any_eq_true.mpr ⟨ex, List.mem_of_find?_eq_some hfind, List.find?_some hfind⟩
    exact ⟨{ s with
             links := s.links.map (fun l =>
               if l.id == ex.id then
                 { l with
                   lastSeenAt := now
                   status :=
                     if ex.status == LinkStatus.«open» then l.status else LinkStatus.«open»
                   updatedAt := now }
               else l) },
      by rw [hpe]; exact scanStep_seq_update s assetId v now ex hfind, rfl, rfl⟩

/-- A field-preserving rewrite of the link table keeps the scan
invariants. -/
theorem scanInv_map {s : Store} (f : Link → Link)
    (hid : ∀ l, (f l).id = l.id)
    (hpair : ∀ l, (f l).assetId = l.assetId ∧ (f l).vulnerabilityId = l.vulnerabilityId)
    (h : ScanInv s) : ScanInv { s with links := s.links.map f } := by
  obtain ⟨hids, hbound, hpu⟩ := h
  refine ⟨?_, ?_, ?_⟩
  · show (List.map Link.id (s.links.map f)).Nodup
    have heq : List.map Link.id (s.links.map f) = List.map Link.id s.links := by
      rw [List.map_map]
      exact List.map_congr_left (fun x _ => hid x)
    rw [heq]
    exact hids
  · intro x hx
    obtain ⟨l, hlMem, hleq⟩ := List.mem_map.mp hx
    have h2 := hid l
    rw [hleq] at h2
    show x.id < s.nextLinkId
    rw [h2]
    exact hbound l hlMem
  · refine List.Pairwise.map _ (fun a b hab => ?_) hpu
    rw [(hpair a).1, (hpair a).2, (hpair b).1, (hpair b).2]
    exact hab

/-- Appending a fresh-id, fresh-pair link keeps the scan invariants. -/
theorem scanInv_append {s : Store} (nl : Link)
    (hnlid : nl.id = s.nextLinkId)
    (hnew : ∀ x ∈ s.links, ¬(x.assetId = nl.assetId ∧ x.vulnerabilityId = nl.vulnerabilityId))
    (h : ScanInv s) :
    ScanInv { s with links := s.links ++ [nl], nextLinkId := s.nextLinkId + 1 } := by
  obtain ⟨hids, hbound, hpu⟩ := h
  refine ⟨?_, ?_, ?_⟩
  · show (List.map Link.id (s.links ++ [nl])).Nodup
    rw [List.map_append, List.nodup_append]
    refine ⟨hids, List.nodup_singleton _, ?_⟩
    intro x hx hx'
    simp only [List.map_cons, List.map_nil, List.mem_singleton] at hx'
    obtain ⟨l, hlMem, hleq⟩ := List.mem_map.mp hx
    have hlt := hbound l hlMem
    rw [hleq] at hlt
    rw [hx', hnlid] at hlt
    exact absurd hlt (lt_irrefl _)
  · intro x hx
    rcases List.mem_append.mp hx with hx | hx
    · exact Nat.lt_succ_of_lt (hbound x hx)
    · rw [List.mem_singleton] at hx
      rw [hx, hnlid]
      exact Nat.lt_succ_self _
  · show pairwiseUnique (s.links ++ [nl])
    unfold pairwiseUnique
    rw [List.pairwise_append]
    exact ⟨hpu, List.pairwise_singleton _ _,
      fun x hx y hy => (List.mem_singleton.mp hy) ▸ hnew x hx⟩

/-- A sequential scan step preserves the link-table invariants. -/
theorem scanStep_seq_inv {s s₁ : Store} {assetId now : Nat} {v : Vulnerability} {b : Bool}
    (h : ScanInv s) (hstep : scanStep s s assetId v now = .ok (s₁, b)) : ScanInv s₁ := by
  cases hfind : s.links.find? (pairPred assetId v.id) with
  | some ex =>
    rw [scanStep_seq_update s assetId v now ex hfind] at hstep
    simp only [Except.ok.injEq, Prod.mk.injEq] at hstep
    obtain ⟨rfl, -⟩ := hstep
    refine scanInv_map _ (fun l => ?_) (fun l => ?_) h
    · split <;> rfl
    · split <;> exact ⟨rfl, rfl⟩
  | none =>
    rw [scanStep_seq_insert s assetId v now hfind] at hstep
    simp only [Except.ok.injEq, Prod.mk.injEq] at hstep
    obtain ⟨rfl, -⟩ := hstep
    refine scanInv_append _ rfl (fun x hx => ?_) h
    have hnp := List.find?_eq_none.mp hfind x hx
    simp only [pairPred, Bool.and_eq_true, beq_iff_eq] at hnp
    simpa using hnp

/-- A sequential scan step leaves the existence of every pair with a
different vulnerability id untouched. -/
theorem scanStep_seq_pairExists {s s₁ : Store} {assetId now : Nat} {v : Vulnerability} {b : Bool}
    (hstep : scanStep s s assetId v now = .ok (s₁, b)) (w : Nat) (hw : w ≠ v.id) :
    pairExists s₁ assetId w = pairExists s assetId w := by
  cases hfind : s.links.find? (pairPred assetId v.id) with
  | some ex =>
    rw [scanStep_seq_update s assetId v now ex hfind] at hstep
    simp only [Except.ok.injEq, Prod.mk.injEq] at hstep
    obtain ⟨rfl, -⟩ := hstep
    unfold pairExists
    show (s.links.map _).any (pairPred assetId w) = s.links.any (pairPred assetId w)
    rw [List.any_map]
    refine any_congr_fn _ (fun x _ => ?_)
    simp only [Function.comp_apply, pairPred]
    split <;> rfl
  | none =>
    rw [scanStep_seq_insert s assetId v now hfind] at hstep
    simp only [Except.ok.injEq, Prod.mk.injEq] at hstep
    obtain ⟨rfl, -⟩ := hstep
    unfold pairExists
    show (s.links ++ _).any (pairPred assetId w) = s.links.any (pairPred assetId w)
    rw [List.any_append]
    have hone : pairPred assetId w
        { id := s.nextLinkId, assetId := assetId, vulnerabilityId := v.id,
          status := .«open», lastSeenAt := now, details := none,
          remediationNotes := none, updatedAt := now } = false := by
      have hv : (v.id == w) = false := beq_eq_false_iff_ne.mpr (fun h => hw h.symm)
      simp [pairPred, hv]
    simp only [List.any_cons, List.any_nil, hone, Bool.or_false]

/-- A sequential scan step keeps every link whose pair differs from the
processed candidate. -/
theorem scanStep_seq_preserves {s s₁ : Store} {assetId now : Nat} {v : Vulnerability} {b : Bool}
    (h : ScanInv s) (hstep : scanStep s s assetId v now = .ok (s₁, b))
    (x : Link) (hx : x ∈ s.links)
    (hxne : ¬(x.assetId = assetId ∧ x.vulnerabilityId = v.id)) :
    x ∈ s₁.links := by
  cases hfind : s.links.find? (pairPred assetId v.id) with
  | some ex =>
    rw [scanStep_seq_update s assetId v now ex hfind] at hstep
    simp only [Except.ok.injEq, Prod.mk.injEq] at hstep
    obtain ⟨rfl, -⟩ := hstep
    have hexMem := List.mem_of_find?_eq_some hfind
    have hexPred := List.find?_some hfind
    simp only [pairPred, Bool.and_eq_true, beq_iff_eq] at hexPred
    have hxex : x ≠ ex := by
      intro he
      exact hxne ⟨he ▸ hexPred.1, he ▸ hexPred.2⟩
    have hxid : (x.id == ex.id) = false := by
      rw [beq_eq_false_iff_ne]
      intro hideq
      exact hxex (mem_eq_of_key_eq h.1 hx hexMem hideq)
    refine List.mem_map.mpr ⟨x, hx, ?_⟩
    simp [hxid]
  | none =>
    rw [scanStep_seq_insert s assetId v now hfind] at hstep
    simp only [Except.ok.injEq, Prod.mk.injEq] at hstep
    obtain ⟨rfl, -⟩ := hstep
    exact List.mem_append_left _ hx

/-- Under the unique index, the pair lookup of the scan finds exactly
the member holding the pair. -/
theorem find?_pair_unique {assetId vid : Nat} :
    ∀ (links : List Link), pairwiseUnique links → ∀ (l : Link), l ∈ links →
      pairPred assetId vid l = true → links.find? (pairPred assetId vid) = some l
  | [], _, l, hl, _ => absurd hl (List.not_mem_nil l)
  | b :: t, hpu, l, hl, hp => by
    have hpu' := (List.pairwise_cons.mp hpu)
    rw [List.find?_cons]
    cases hb : pairPred assetId vid b with
    | true =>
      rcases List.mem_cons.mp hl with rfl | hlt
      · rfl
      · exfalso
        have hrel := hpu'.1 l hlt
        simp only [pairPred, Bool.and_eq_true, beq_iff_eq] at hb hp
        exact hrel ⟨hb.1.trans hp.1.symm, hb.2.trans hp.2.symm⟩
    | false =>
      have hlb : l ≠ b := by
        intro he
        rw [he, hb] at hp
        cases hp
      have hlt : l ∈ t := by
        rcases List.mem_cons.mp hl with rfl | hmem
        · exact absurd rfl hlb
        · exact hmem
      exact find?_pair_unique t hpu'.2 l hlt hp

/-- Processing a candidate whose link already exists reopens exactly
that link: status open, lastSeenAt and updatedAt advanced to now. -/
theorem scanStep_seq_target {s : Store} {assetId now : Nat} {v : Vulnerability}
    (h : ScanInv s) (l : Link) (hl : l ∈ s.links)
    (hla : l.assetId = assetId) (hlv : l.vulnerabilityId = v.id) :
    ∃ s₁, scanStep s s assetId v now = .ok (s₁, true) ∧
      { l with lastSeenAt := now, status := LinkStatus.«open», updatedAt := now } ∈ s₁.links := by
  have hp : pairPred assetId v.id l = true := by
    simp [pairPred, hla, hlv]
  have hfind := find?_pair_unique s.links h.2.2 l hl hp
  refine ⟨_, scanStep_seq_update s assetId v now l hfind, ?_⟩
  have hstatus :
      (if l.status == LinkStatus.«open» then l.status else LinkStatus.«open») =
        LinkStatus.«open» := by
    by_cases hs : (l.status == LinkStatus.«open») = true
    · rw [if_pos hs]
      exact beq_iff_eq.mp hs
    · rw [if_neg hs]
  refine List.mem_map.mpr ⟨l, hl, ?_⟩
  rw [if_pos (beq_self_eq_true l.id), hstatus]

/-- The sequential scan loop always succeeds, its two counters add up
to the batch length, and it never touches assets or vulnerabilities. -/
theorem scanLoop_seq_spec (assetId now : Nat) :
    ∀ (batch : List Vulnerability) (s : Store),
      ∃ n u s₂, scanLoop (fun s₀ => s₀) assetId now s batch = (.ok (n, u), s₂) ∧
        n + u = batch.length ∧ s₂.assets = s.assets ∧ s₂.vulnerabilities = s.vulnerabilities
  | [], s => ⟨0, 0, s, rfl, rfl, rfl, rfl⟩
  | v :: rest, s => by
    obtain ⟨s₁, hstep, hsa, hsv⟩ := scanStep_seq_ok s assetId v now
    obtain ⟨n, u, s₂, hloop, hsum, ha2, hv2⟩ := scanLoop_seq_spec assetId now rest s₁
    cases hpe : pairExists s assetId v.id with
    | true =>
      rw [hpe] at hstep
      refine ⟨n, u + 1, s₂, ?_, by simp [List.length_cons]; omega,
        ha2.trans hsa, hv2.trans hsv⟩
      simp [scanLoop, hstep, hloop]
    | false =>
      rw [hpe] at hstep
      refine ⟨n + 1, u, s₂, ?_, by simp [List.length_cons]; omega,
        ha2.trans hsa, hv2.trans hsv⟩
      simp [scanLoop, hstep, hloop]

/-- Under the invariants and a duplicate-free candidate batch, the
sequential scan loop counts exactly the candidates whose pair already
existed under updatedLinks and the rest under newlyLinked. -/
theorem scanLoop_seq_counts (assetId now : Nat) :
    ∀ (batch : List Vulnerability) (s : Store), ScanInv s →
      (batch.map Vulnerability.id).Nodup →
      ∃ s₂, scanLoop (fun s₀ => s₀) assetId now s batch =
        (.ok (batch.countP (fun w => !(pairExists s assetId w.id)),
              batch.countP (fun w => pairExists s assetId w.id)), s₂) ∧ ScanInv s₂
  | [], s, hinv, _ => ⟨s, by simp [scanLoop], hinv⟩
  | v :: rest, s, hinv, hnd => by
    rw [List.map_cons, List.nodup_cons] at hnd
    obtain ⟨s₁, hstep, -, -⟩ := scanStep_seq_ok s assetId v now
    have hinv₁ := scanStep_seq_inv hinv hstep
    obtain ⟨s₂, hloop, hinv₂⟩ := scanLoop_seq_counts assetId now rest s₁ hinv₁ hnd.2
    have htrans : ∀ w ∈ rest, pairExists s₁ assetId w.id = pairExists s assetId w.id := by
      intro w hw
      refine scanStep_seq_pairExists hstep w.id ?_
      intro heq
      exact hnd.1 (heq ▸ List.mem_map_of_mem Vulnerability.id hw)
    have hc1 : rest.countP (fun w => !(pairExists s₁ assetId w.id)) =
        rest.countP (fun w => !(pairExists s assetId w.id)) :=
      List.countP_congr (fun w hw => by rw [htrans w hw])
    have hc2 : rest.countP (fun w => pairExists s₁ assetId w.id) =
        rest.countP (fun w => pairExists s assetId w.id) :=
      List.countP_congr (fun w hw => by rw [htrans w hw])
    rw [hc1, hc2] at hloop
    cases hpe : pairExists s assetId v.id with
    | true =>
      rw [hpe] at hstep
      refine ⟨s₂, ?_, hinv₂⟩
      rw [List.countP_cons_of_neg _ _ (by simp [hpe]),
        List.countP_cons_of_pos _ _ (by simp [hpe])]
      simp [scanLoop, hstep, hloop]
    | false =>
      rw [hpe] at hstep
      refine ⟨s₂, ?_, hinv₂⟩
      rw [List.countP_cons_of_pos _ _ (by simp [hpe]),
        List.countP_cons_of_neg _ _ (by simp [hpe])]
      simp [scanLoop, hstep, hloop]

/-- The sequential scan loop keeps every link whose pair matches none of
the remaining candidates. -/
theorem scanLoop_seq_preserve (assetId now : Nat) :
    ∀ (rest : List Vulnerability) (s : Store) (x : Link), ScanInv s → x ∈ s.links →
      (∀ w ∈ rest, ¬(x.assetId = assetId ∧ x.vulnerabilityId = w.id)) →
      ∃ n u s₂, scanLoop (fun s₀ => s₀) assetId now s rest = (.ok (n, u), s₂) ∧
        x ∈ s₂.links ∧ ScanInv s₂
  | [], s, x, hinv, hx, _ => ⟨0, 0, s, rfl, hx, hinv⟩
  | v :: rest, s, x, hinv, hx, hne => by
    obtain ⟨s₁, hstep, -, -⟩ := scanStep_seq_ok s assetId v now
    have hx₁ := scanStep_seq_preserves hinv hstep x hx (hne v (.head rest))
    have hinv₁ := scanStep_seq_inv hinv hstep
    obtain ⟨n, u, s₂, hloop, hx₂, hinv₂⟩ :=
      scanLoop_seq_preserve assetId now rest s₁ x hinv₁ hx₁ (fun w hw => hne w (.tail v hw))
    cases hpe : pairExists s assetId v.id with
    | true =>
      rw [hpe] at hstep
      exact ⟨n, u + 1, s₂, by simp [scanLoop, hstep, hloop], hx₂, hinv₂⟩
    | false =>
      rw [hpe] at hstep
      exact ⟨n + 1, u, s₂, by simp [scanLoop, hstep, hloop], hx₂, hinv₂⟩

/-- Through the whole sequential scan loop, a candidate with an existing
link ends with that link reopened and freshly stamped. -/
theorem scanLoop_seq_target (assetId now : Nat) :
    ∀ (batch : List Vulnerability) (s : Store) (l : Link) (v : Vulnerability),
      ScanInv s → (batch.map Vulnerability.id).Nodup → v ∈ batch → l ∈ s.links →
      l.assetId = assetId → l.vulnerabilityId = v.id →
      ∃ n u s₂, scanLoop (fun s₀ => s₀) assetId now s batch = (.ok (n, u), s₂) ∧
        { l with lastSeenAt := now, status := LinkStatus.«open», updatedAt := now } ∈ s₂.links ∧
        (s₂.links.map Link.id).Nodup
  | [], _, _, v, _, _, hv, _, _, _ => absurd hv (List.not_mem_nil v)
  | v₀ :: rest, s, l, v, hinv, hnd, hv, hl, hla, hlv => by
    rw [List.map_cons, List.nodup_cons] at hnd
    rcases List.mem_cons.mp hv with rfl | hvrest
    · obtain ⟨s₁, hstep, htgt⟩ := scanStep_seq_target hinv l hl hla hlv
      have hinv₁ := scanStep_seq_inv hinv hstep
      obtain ⟨n, u, s₂, hloop, htgt₂, hinv₂⟩ :=
        scanLoop_seq_preserve assetId now rest s₁ _ hinv₁ htgt (fun w hw hpair => by
          have h2 : l.vulnerabilityId = w.id := hpair.2
          refine hnd.1 ?_
          have hvw : v.id = w.id := hlv ▸ h2
          rw [hvw]
          exact List.mem_map_of_mem Vulnerability.id hw)
      exact ⟨n, u + 1, s₂, by simp [scanLoop, hstep, hloop], htgt₂, hinv₂.1⟩
    · obtain ⟨s₁, hstep, -, -⟩ := scanStep_seq_ok s assetId v₀ now
      have hlpres : l ∈ s₁.links := by
        refine scanStep_seq_preserves hinv hstep l hl ?_
        rintro ⟨-, h2⟩
        refine hnd.1 ?_
        have : v₀.id = v.id := by rw [← h2, hlv]
        rw [this]
        exact List.mem_map_of_mem Vulnerability.id hvrest
      have hinv₁ := scanStep_seq_inv hinv hstep
      obtain ⟨n, u, s₂, hloop, htgt₂, hnd₂⟩ :=
        scanLoop_seq_target assetId now rest s₁ l v hinv₁ hnd.2 hvrest hlpres hla hlv
      cases hpe : pairExists s assetId v₀.id with
      | true =>
        rw [hpe] at hstep
        exact ⟨n, u + 1, s₂, by simp [scanLoop, hstep, hloop], htgt₂, hnd₂⟩
      | false =>
        rw [hpe] at hstep
        exact ⟨n + 1, u, s₂, by simp [scanLoop, hstep, hloop], htgt₂, hnd₂⟩

/-- The candidate batch inherits duplicate-free ids from the
vulnerabilities table. -/
theorem candidateBatch_ids_nodup (s : Store)
    (h : (s.vulnerabilities.map Vulnerability.id).Nodup) :
    ((candidateBatch s).map Vulnerability.id).Nodup := by
  unfold candidateBatch
  rw [List.map_take]
  refine List.Nodup.sublist (List.take_sublist _ _) ?_
  exact ((List.perm_insertionSort _ _).map Vulnerability.id).nodup_iff.mpr h

/-- The candidate batch is bounded by the scan limit of 5. -/
theorem candidateBatch_length_le (s : Store) : (candidateBatch s).length ≤ 5 := by
  unfold candidateBatch
  rw [List.length_take]
  exact min_le_left _ _

/-- C10: the link-merging scan never modifies the asset table (in
particular not lastScannedAt or updatedAt of the scanned asset) nor the
vulnerability table, on any path: only the link collection changes. -/
theorem scanAsset_asset_frame (s : Store) (assetId now : Nat) :
    ((scanAsset s assetId now).2).assets = s.assets ∧
    ((scanAsset s assetId now).2).vulnerabilities = s.vulnerabilities := by
  unfold scanAsset scanAssetWith
  cases hA : s.assets.find? (fun a => a.id == assetId) with
  | none => simp [hA]
  | some a₀ =>
    cases hbe : (candidateBatch s).isEmpty with
    | true => simp [hA, hbe]
    | false =>
      obtain ⟨n, u, s₂, hloop, -, hfa, hfv⟩ := scanLoop_seq_spec assetId now (candidateBatch s) s
      simp [hA, hbe, hloop, hfa, hfv]

/-- C9: a scan of an existing asset always reports
vulnerabilitiesProcessed equal to the candidate batch size (at most 5),
and every candidate lands in exactly one of the two counters, so
newlyLinked + updatedLinks = vulnerabilitiesProcessed. -/
theorem scanAsset_counts_partition (s : Store) (assetId now : Nat)
    (ha : ∃ a ∈ s.assets, a.id = assetId) :
    ∃ msg n u s₂,
      scanAsset s assetId now = (.completed msg assetId n u ((candidateBatch s).length), s₂) ∧
      n + u = (candidateBatch s).length ∧ (candidateBatch s).length ≤ 5 := by
  obtain ⟨a₀, hA⟩ := assets_find?_some ha
  unfold scanAsset scanAssetWith
  cases hbe : (candidateBatch s).isEmpty with
  | true =>
    have hnil : candidateBatch s = [] := List.isEmpty_iff.mp hbe
    exact ⟨noVulnsMsg, 0, 0, s, by simp [hA, hbe, hnil], by simp [hnil],
      by simp [hnil]⟩
  | false =>
    obtain ⟨n, u, s₂, hloop, hsum, -, -⟩ := scanLoop_seq_spec assetId now (candidateBatch s) s
    exact ⟨scanDoneMsg, n, u, s₂, by simp [hA, hbe, hloop], hsum, candidateBatch_length_le s⟩

/-- C9 witness: the counter partition at a concrete store. -/
theorem scanAsset_counts_partition_witness :
    ∃ msg n u s₂,
      scanAsset demoStore 1 6 =
        (.completed msg 1 n u ((candidateBatch demoStore).length), s₂) ∧
      n + u = (candidateBatch demoStore).length ∧ (candidateBatch demoStore).length ≤ 5 :=
  scanAsset_counts_partition demoStore 1 6 ⟨asset1, by decide, rfl⟩

/-- C4: when a candidate of the batch already has a link to the scanned
asset, the scan reopens that link (status open even if it was, say,
remediated; unchanged if it already was open), stamps lastSeenAt (and
updatedAt) with now, and counts it under updatedLinks — the updatedLinks
counter is exactly the number of candidates with a preexisting link and
newlyLinked exactly the number without one. -/
theorem scanAsset_reseen_reopens
    (s : Store) (a : Asset) (v : Vulnerability) (l : Link) (now : Nat)
    (hwf : s.WF) (ha : a ∈ s.assets) (hv : v ∈ candidateBatch s)
    (hl : l ∈ s.links) (hla : l.assetId = a.id) (hlv : l.vulnerabilityId = v.id) :
    ∃ s₂,
      scanAsset s a.id now =
        (.completed scanDoneMsg a.id
          ((candidateBatch s).countP (fun w => !(pairExists s a.id w.id)))
          ((candidateBatch s).countP (fun w => pairExists s a.id w.id))
          (candidateBatch s).length, s₂) ∧
      s₂.links.find? (fun x => x.id == l.id) =
        some { l with lastSeenAt := now, status := LinkStatus.«open», updatedAt := now } ∧
      1 ≤ (candidateBatch s).countP (fun w => pairExists s a.id w.id) := by
  obtain ⟨-, hVid, hLid, hbound, -, -, hpu⟩ := hwf
  have hinv : ScanInv s := ⟨hLid, hbound, hpu⟩
  have hnd := candidateBatch_ids_nodup s hVid
  obtain ⟨a₀, hA⟩ := assets_find?_some ⟨a, ha, rfl⟩
  have hbe : (candidateBatch s).isEmpty = false := by
    rw [List.isEmpty_eq_false]
    intro h0
    rw [h0] at hv
    exact absurd hv (List.not_mem_nil v)
  obtain ⟨s₂, hloopC, -⟩ := scanLoop_seq_counts a.id now (candidateBatch s) s hinv hnd
  obtain ⟨n, u, s₂T, hloopT, htgt, hnd₂⟩ :=
    scanLoop_seq_target a.id now (candidateBatch s) s l v hinv hnd hv hl hla hlv
  have hunify := hloopT.symm.trans hloopC
  simp only [Prod.mk.injEq, Except.ok.injEq] at hunify
  obtain ⟨⟨-, -⟩, hs⟩ := hunify
  subst hs
  refine ⟨s₂T, ?_, ?_, ?_⟩
  · simp [scanAsset, scanAssetWith, hA, hbe, hloopC]
  · exact find?_key_eq_some s₂T.links hnd₂ _ htgt
  · exact List.countP_pos_iff.mpr
      ⟨v, hv, List.any_eq_true.mpr ⟨l, hl, by simp [pairPred, hla, hlv]⟩⟩

/-- C4 witness: scanning the demo store reopens the remediated link of
asset 1 to vulnerability 1 and counts it under updatedLinks. -/
theorem scanAsset_reseen_reopens_witness :
    ∃ s₂, scanAsset demoStore 1 6 = (.completed scanDoneMsg 1 1 1 2, s₂) ∧
      s₂.links.find? (fun x => x.id == 1) =
        some { link11 with lastSeenAt := 6, status := LinkStatus.«open», updatedAt := 6 } := by
  obtain ⟨s₂, h1, h2, -⟩ := scanAsset_reseen_reopens demoStore asset1 vuln1 link11 6
    (by decide) (by decide) (by decide) (by decide) rfl rfl
  have hcounts : (ScanResult.completed scanDoneMsg asset1.id
      ((candidateBatch demoStore).countP (fun w => !(pairExists demoStore asset1.id w.id)))
      ((candidateBatch demoStore).countP (fun w => pairExists demoStore asset1.id w.id))
      (candidateBatch demoStore).length) = .completed scanDoneMsg 1 1 1 2 := by decide
  exact ⟨s₂, hcounts ▸ h1, h2⟩

/-- C3 counterexample: a concurrent CreateLink that commits the pair
between the scan existence check and the scan insert does NOT get
recovered into an update: the request ends in the generic 500 hard
error, not in a completed result counting the candidate under
updatedLinks. -/
theorem scanRace_counterexample :
    (scanAssetWith raceInterf raceStore 1 7).1 = .serverError scanErrorMsg ∧
    (scanAssetWith raceInterf raceStore 1 7).1 ≠
      .completed scanDoneMsg 1 0 1 1 := by
  decide

/-- C3 as the code actually behaves: when the existence check saw no
link for the pair but a concurrent request has committed one before the
insert, the store raises the uniqueness violation, the loop body has no
handler for it, and the route's generic catch fails the whole scan with
HTTP 500 leaving this request's work undone. -/
theorem scanRace_unique_violation_is_hard_error
    (s : Store) (interf : Store → Store) (assetId now : Nat)
    (v : Vulnerability) (rest : List Vulnerability)
    (ha : ∃ a ∈ s.assets, a.id = assetId)
    (hbatch : candidateBatch s = v :: rest)
    (hno : pairExists s assetId v.id = false)
    (hyes : pairExists (interf s) assetId v.id = true) :
    scanAssetWith interf s assetId now = (.serverError scanErrorMsg, interf s) := by
  obtain ⟨a₀, hA⟩ := assets_find?_some ha
  have hfind : s.links.find? (pairPred assetId v.id) = none :=
    List.find?_eq_none.mpr (List.any_eq_false.mp hno)
  unfold pairExists at hyes
  have hstep : scanStep s (interf s) assetId v now = .error ⟨23505, uniqueIdxName⟩ := by
    unfold scanStep Store.insertLink
    rw [hfind]
    simp only [hyes, if_true]
  have hbe : (candidateBatch s).isEmpty = false := by
    rw [hbatch]
    rfl
  simp [scanAssetWith, hA, hbe, hbatch, scanLoop, hstep]

/-- C3 amended-claim witness: the hard 500 error at a concrete race. -/
theorem scanRace_unique_violation_is_hard_error_witness :
    scanAssetWith raceInterf raceStore 1 7 = (.serverError scanErrorMsg, raceInterf raceStore) :=
  scanRace_unique_violation_is_hard_error raceStore raceInterf 1 7 vuln1 []
    ⟨asset1, by decide, rfl⟩ (by decide) (by decide) (by decide)

/-! ## Dashboard lemmas -/

/-- Overriding the value stored under one key rewrites lookups pointwise. -/
theorem lookup_map_override (sv : Severity) (cnt : Nat) (sev : Severity) :
    ∀ (acc : List (Severity × Nat)),
      (acc.map (fun p => if p.1 == sv then (p.1, cnt) else p)).lookup sev =
        (acc.lookup sev).map (fun old => if sev = sv then cnt else old)
  | [] => rfl
  | (k, val) :: t => by
    have IH := lookup_map_override sv cnt sev t
    rw [List.map_cons]
    by_cases hks : k = sv
    · have hb : (k == sv) = true := beq_iff_eq.mpr hks
      dsimp only
      rw [if_pos hb]
      by_cases hsk : sev = k
      · have hb2 : (sev == k) = true := beq_iff_eq.mpr hsk
        simp [List.lookup, hb2, hsk, hks]
      · have hb2 : (sev == k) = false := beq_eq_false_iff_ne.mpr hsk
        simp only [List.lookup, hb2]
        exact IH
    · have hb : (k == sv) = false := beq_eq_false_iff_ne.mpr hks
      dsimp only
      rw [if_neg (by simp [hb])]
      by_cases hsk : sev = k
      · have hb2 : (sev == k) = true := beq_iff_eq.mpr hsk
        have hnsv : ¬sev = sv := by
          rw [hsk]
          exact hks
        simp [List.lookup, hb2, hnsv]
      · have hb2 : (sev == k) = false := beq_eq_false_iff_ne.mpr hsk
        simp only [List.lookup, hb2]
        exact IH

/-- Overriding a value keeps the keys of the association list. -/
theorem keys_map_override (sv : Severity) (cnt : Nat) (acc : List (Severity × Nat)) :
    ((acc.map (fun p => if p.1 == sv then (p.1, cnt) else p)).map Prod.fst) =
      acc.map Prod.fst := by
  rw [List.map_map]
  refine List.map_congr_left (fun p _ => ?_)
  by_cases h : p.1 = sv <;> simp [h]

/-- The populate pass of the by-severity object: keys never change. -/
theorem statsFold_keys (f : Option Severity → Nat) :
    ∀ (L : List (Option Severity)) (acc : List (Severity × Nat)),
      (((L.map (fun v => (v, f v))).foldl (fun acc row =>
        match row.1 with
        | none => acc
        | some sv => acc.map (fun p => if p.1 == sv then (p.1, row.2) else p)) acc).map
          Prod.fst) = acc.map Prod.fst
  | [], _ => rfl
  | none :: L, acc => by
    simp only [List.map_cons, List.foldl_cons]
    exact statsFold_keys f L acc
  | some sv :: L, acc => by
    simp only [List.map_cons, List.foldl_cons]
    exact (statsFold_keys f L _).trans (keys_map_override sv (f (some sv)) acc)

/-- The populate pass of the by-severity object: the final value under a
key is its group count when the key occurs, else the seeded value. -/
theorem statsFold_lookup (f : Option Severity → Nat) (sev : Severity) :
    ∀ (L : List (Option Severity)) (acc : List (Severity × Nat)) (g : Severity → Nat),
      (∀ x, acc.lookup x = some (g x)) →
      (((L.map (fun v => (v, f v))).foldl (fun acc row =>
        match row.1 with
        | none => acc
        | some sv => acc.map (fun p => if p.1 == sv then (p.1, row.2) else p)) acc).lookup
          sev) = some (if (some sev) ∈ L then f (some sev) else g sev)
  | [], acc, g, hacc => by simp [hacc]
  | none :: L, acc, g, hacc => by
    simp only [List.map_cons, List.foldl_cons]
    have IH := statsFold_lookup f sev L acc g hacc
    by_cases hm : (some sev) ∈ L
    · rw [IH]
      simp [hm]
    · rw [IH]
      simp [hm, List.mem_cons]
  | some sv :: L, acc, g, hacc => by
    simp only [List.map_cons, List.foldl_cons]
    have hacc' : ∀ x,
        (acc.map (fun p => if p.1 == sv then (p.1, f (some sv)) else p)).lookup x =
          some (if x = sv then f (some sv) else g x) := by
      intro x
      rw [lookup_map_override, hacc x, Option.map_some']
    have IH := statsFold_lookup f sev L _ _ hacc'
    rw [IH]
    by_cases hm : (some sev) ∈ L
    · simp [hm]
    · by_cases hsv : sev = sv
      · subst hsv
        simp [hm]
      · simp [hm, hsv, List.mem_cons]

/-- C6: the statistics by-severity breakdown always carries exactly the
five severities as keys, and under each key the number of open links
whose joined vulnerability has that severity — in particular an
explicit 0 for a severity with no open links. -/
theorem statistics_severity_complete (s : Store) :
    ((statistics s).openVulnerabilitiesBySeverity.map Prod.fst = severityValues) ∧
    ∀ sev : Severity,
      (statistics s).openVulnerabilitiesBySeverity.lookup sev =
        some ((openSeverities s).count (some sev)) := by
  unfold statistics
  dsimp only
  constructor
  · exact (statsFold_keys
      (fun v => match v with | none => 0 | some _ => (openSeverities s).count v)
      ((openSeverities s).dedup) _).trans rfl
  · intro sev
    have hinit : ∀ x, ((severityValues.map (fun sv => (sv, 0))).lookup x) =
        some ((fun _ => 0) x) := by
      intro x
      cases x <;> rfl
    have h := statsFold_lookup
      (fun v => match v with | none => 0 | some _ => (openSeverities s).count v)
      sev ((openSeverities s).dedup) _ (fun _ => 0) hinit
    refine h.trans ?_
    congr 1
    by_cases hm : (some sev) ∈ (openSeverities s).dedup
    · simp [hm]
    · have hnm : (some sev) ∉ openSeverities s := fun hx => hm (List.mem_dedup.mpr hx)
      simp [hm, List.count_eq_zero.mpr hnm]

/-- C6 witness: the critical-severity entry of the demo store. -/
theorem statistics_severity_complete_witness :
    (statistics demoStore).openVulnerabilitiesBySeverity.lookup Severity.critical =
      some ((openSeverities demoStore).count (some Severity.critical)) :=
  (statistics_severity_complete demoStore).2 Severity.critical

/-- A truthy optional string is present. -/
theorem strTruthy_isSome {o : Option String} (h : strTruthy o = true) : o.isSome = true := by
  cases o with
  | none => simp [strTruthy] at h
  | some _ => rfl

/-- C8: recent-vulnerabilities returns at most 5 entries, ordered by the
link updatedAt descending, every entry projected from an open link via
the parent joins, and never an entry whose parent vulnerability or asset
failed to resolve (such links are filtered out, not returned with null
fields). -/
theorem recentVulnerabilities_spec (s : Store) :
    (recentVulnerabilities s).length ≤ 5 ∧
    (recentVulnerabilities s).Pairwise
      (fun e₁ e₂ => e₂.lastSeenOrUpdatedAt ≤ e₁.lastSeenOrUpdatedAt) ∧
    ∀ e ∈ recentVulnerabilities s, ∃ l, l ∈ s.links ∧ l.status = LinkStatus.«open» ∧
      e = recentSelect s l ∧ e.vulnerabilityName.isSome ∧ e.assetName.isSome := by
  unfold recentVulnerabilities
  dsimp only
  refine ⟨?_, ?_, ?_⟩
  · refine le_trans (List.filter_sublist _).length_le ?_
    rw [List.length_map, List.length_take]
    exact min_le_left _ _
  · haveI htot : IsTotal Link (fun l₁ l₂ => l₂.updatedAt ≤ l₁.updatedAt) :=
      ⟨fun a b => (le_total b.updatedAt a.updatedAt)⟩
    haveI htrans : IsTrans Link (fun l₁ l₂ => l₂.updatedAt ≤ l₁.updatedAt) :=
      ⟨fun _ _ _ hab hbc => le_trans hbc hab⟩
    have hsorted := List.sorted_insertionSort (fun l₁ l₂ : Link => l₂.updatedAt ≤ l₁.updatedAt)
      (s.links.filter (fun l => l.status == LinkStatus.«open»))
    have h1 := List.Pairwise.sublist (List.take_sublist 5 _) hsorted
    have h2 : List.Pairwise
        (fun e₁ e₂ : RecentVulnEntry => e₂.lastSeenOrUpdatedAt ≤ e₁.lastSeenOrUpdatedAt)
        (List.map (recentSelect s) (List.take 5
          (List.insertionSort (fun l₁ l₂ : Link => l₂.updatedAt ≤ l₁.updatedAt)
            (s.links.filter (fun l => l.status == LinkStatus.«open»))))) :=
      List.Pairwise.map (recentSelect s) (fun _ _ hab => hab) h1
    exact List.Pairwise.sublist (List.filter_sublist _) h2
  · intro e he
    have he' := List.mem_filter.mp he
    obtain ⟨l, hlMem, hle⟩ := List.mem_map.mp he'.1
    have hlMem₂ := List.mem_of_mem_take hlMem
    have hlMem₃ := (List.perm_insertionSort
      (fun l₁ l₂ : Link => l₂.updatedAt ≤ l₁.updatedAt)
      (s.links.filter (fun l => l.status == LinkStatus.«open»))).mem_iff.mp hlMem₂
    have hlMem₄ := List.mem_filter.mp hlMem₃
    have htruthy := he'.2
    rw [Bool.and_eq_true] at htruthy
    exact ⟨l, hlMem₄.1, beq_iff_eq.mp hlMem₄.2, hle.symm,
      strTruthy_isSome htruthy.1, strTruthy_isSome htruthy.2⟩

/-- C8 witness: the bound at a concrete store. -/
theorem recentVulnerabilities_spec_witness :
    (recentVulnerabilities demoStore).length ≤ 5 :=
  (recentVulnerabilities_spec demoStore).1

end SentraX
